/-
Verification of the coinmarketcap_mcp data-access layer.

This file gives a shallow embedding of the repository's core:
  * `src/api/coinmarketcap.py` — the caching/retrying HTTP client
    (`CoinMarketCapClient`): cache key generation, TTL-based lazy cache,
    the 3-attempt retry loop of `_make_request`, and the listing query
    `get_cryptocurrency_listing`.
  * `src/utils/chains.py` — the chain registry (`CHAINS`, `get_chain`,
    `list_supported_chains`, `validate_chain`).
  * `src/server.py` — the multi-chain handlers `handle_compare_chains`
    and `handle_search_token_across_chains`, modelled over an abstract
    per-chain fetch function standing for the client call they make.

Machine-level conventions: Python `datetime` timestamps become `Nat`
seconds; JSON values become the inductive `Json` with Python truthiness
and the Python `in` membership test modelled explicitly; network I/O
becomes an oracle `net : Nat → Outcome` giving the outcome of each
attempt; `asyncio.sleep` calls are recorded in a trace.
-/
import Mathlib

namespace CMC

/-- JSON-like values, the payloads moved by the client.  Numeric leaves are
modelled as rationals. -/
inductive Json where
  | null
  | bool (b : Bool)
  | num (q : Rat)
  | str (s : String)
  | arr (elems : List Json)
  | obj (fields : List (String × Json))

/-- Python truthiness of a JSON value (`if cached:` in `_make_request`):
empty containers, empty strings, zero and `None`/`False` are falsy. -/
def Json.isTruthy : Json → Bool
  | .null => false
  | .bool b => b
  | .num q => q != 0
  | .str s => s != ""
  | .arr es => !es.isEmpty
  | .obj fs => !fs.isEmpty

/-- Helper for the Python membership test on list elements:
`"data" == elem` is true only for the string literal. -/
def Json.isDataStr : Json → Bool
  | .str s => s == "data"
  | _ => false

/-- Whether `need` is a prefix of `hay` (character lists). -/
def listStartsWith : List Char → List Char → Bool
  | _, [] => true
  | [], _ :: _ => false
  | a :: as, b :: bs => a == b && listStartsWith as bs

/-- Whether `need` occurs as a contiguous subsequence of `hay` — the
Python substring test `need in hay` on strings. -/
def containsSeq : List Char → List Char → Bool
  | [], need => need.isEmpty
  | a :: rest, need => listStartsWith (a :: rest) need || containsSeq rest need

/-- The Python test `'data' not in data` from `_make_request` (line 152),
modelled positively: `.ok b` when the `in` test evaluates to `b`, and
`.error ()` when Python would raise `TypeError` (non-container operand).
For a dict it is key membership, for a list element membership, for a
string a substring test. -/
def pyContainsDataField : Json → Except Unit Bool
  | .obj fields => .ok (fields.any (fun p => p.1 == "data"))
  | .arr elems => .ok (elems.any Json.isDataStr)
  | .str s => .ok (containsSeq s.data "data".data)
  | _ => .error ()

/-- Query parameter values: the client only ever places ints and strings
in `params`; `render` is the f-string conversion used by
`_get_cache_key`. -/
inductive PValue where
  | int (n : Int)
  | str (s : String)
deriving DecidableEq

def PValue.render : PValue → String
  | .int n => toString n
  | .str s => s

abbrev Param := String × PValue

/-- Lexicographic (code-point) strict comparison of character lists — the
comparison Python uses on `str`.  (Defined on `List Char` rather than via
`String.lt` so that it evaluates inside the kernel.) -/
def strLtB : List Char → List Char → Bool
  | [], [] => false
  | [], _ :: _ => true
  | _ :: _, [] => false
  | a :: as, b :: bs =>
    if a < b then true else if b < a then false else strLtB as bs

/-- Python `s <= t` on strings. -/
def strLeB (s t : String) : Bool := !(strLtB t.data s.data)

def keyLE (s t : String) : Prop := strLeB s t = true

def keyLT (s t : String) : Prop := strLtB s.data t.data = true

instance : DecidableRel keyLE := fun _ _ => inferInstanceAs (Decidable (_ = true))

/-- Order on parameters used by `sorted(params.items())`.  Dict keys are
unique, so Python's lexicographic sort on `(key, value)` tuples coincides
with sorting by key alone. -/
def paramKeyLE (p q : Param) : Prop := keyLE p.1 q.1

instance : DecidableRel paramKeyLE :=
  fun _ _ => inferInstanceAs (Decidable (_ = true))

/-- Strict companion of `paramKeyLE`, used to make sortedness rigid once
keys are known to be distinct. -/
def paramKeyLT (p q : Param) : Prop := keyLT p.1 q.1

/-- The `sorted(params.items())` step of `_get_cache_key`. -/
def sortedParams (params : List Param) : List Param :=
  List.insertionSort paramKeyLE params

/-- `CoinMarketCapClient._get_cache_key`: sort the parameters, render each
as `k=v`, join with `&`, and prepend `endpoint?`. -/
def getCacheKey (endpoint : String) (params : List Param) : String :=
  endpoint ++ "?" ++
    String.intercalate "&" ((sortedParams params).map (fun p => p.1 ++ "=" ++ p.2.render))

/-- The client cache `self._cache`: cache key → (payload, timestamp). -/
abbrev Cache := List (String × (Json × Nat))

def cacheLookup (c : Cache) (k : String) : Option (Json × Nat) :=
  List.lookup k c

/-- Deletion `del self._cache[cache_key]`. -/
def cacheErase (c : Cache) (k : String) : Cache :=
  c.filter (fun e => e.1 != k)

/-- `CoinMarketCapClient._set_cache`: store (overwrite) under the key with
the current timestamp. -/
def cacheSet (c : Cache) (k : String) (v : Json × Nat) : Cache :=
  cacheErase c k ++ [(k, v)]

/-- `self._cache_ttl = timedelta(seconds=60)`. -/
def cacheTtlSeconds : Nat := 60

/-- `CoinMarketCapClient._get_from_cache`: return a live entry, lazily
evicting an expired one.  Returns the looked-up value together with the
possibly-shrunk cache. -/
def getFromCache (key : String) (now : Nat) (c : Cache) : Option Json × Cache :=
  match cacheLookup c key with
  | some (data, ts) =>
    if now - ts < cacheTtlSeconds then (some data, c)
    else (none, cacheErase c key)
  | none => (none, c)

/-- Terminal errors of `_make_request` (class `CoinMarketCapAPIError`,
split by the message produced). -/
inductive CMCError where
  | clientError (status : Nat)
  | serverError (status : Nat)
  | networkError
  | unexpectedError
  | maxRetriesExceeded
deriving DecidableEq

/-- Outcome of one network attempt `self.session.get` followed by
`raise_for_status()` and `.json()`:
`success` is a 2xx/3xx response with a parsed JSON body, `httpError` is a
status ≥ 400 raising `httpx.HTTPStatusError`, `transportError` is an
`httpx.RequestError`, and `otherError` any other exception raised during
the attempt (e.g. JSON decoding). -/
inductive Outcome where
  | success (body : Json)
  | httpError (status : Nat)
  | transportError
  | otherError

/-- Result of a `_make_request` run: the returned payload or raised error,
the final cache, the number of network attempts performed, and the list of
backoff sleep durations (seconds) in order. -/
structure RunResult where
  result : Except CMCError Json
  cache : Cache
  attemptsUsed : Nat
  sleeps : List Nat

/-- `max_retries = 3` in `_make_request`. -/
def maxRetries : Nat := 3

/-- The retry loop `for attempt in range(max_retries)` of `_make_request`.
`fuel` counts the remaining iterations and `attempt` the Python loop
index; the two branches of each `except` clause mirror the source: a 4xx
is terminal at once, anything else retries with a `2 ** attempt` sleep
unless this was the final attempt.  A success whose body fails the
`'data' not in data` check raises `CoinMarketCapAPIError` inside the
`try`, which the source's `except Exception` catches: it is retryable and
nothing is cached. -/
def attemptLoop (key : String) (now : Nat) (net : Nat → Outcome) :
    Nat → Nat → Cache → List Nat → RunResult
  | 0, attempt, c, sleeps => ⟨.error .maxRetriesExceeded, c, attempt, sleeps⟩
  | fuel + 1, attempt, c, sleeps =>
    match net attempt with
    | .success body =>
      match pyContainsDataField body with
      | .ok true => ⟨.ok body, cacheSet c key (body, now), attempt + 1, sleeps⟩
      | _ =>
        if attempt = maxRetries - 1 then ⟨.error .unexpectedError, c, attempt + 1, sleeps⟩
        else attemptLoop key now net fuel (attempt + 1) c (sleeps ++ [2 ^ attempt])
    | .httpError status =>
      if 400 ≤ status ∧ status < 500 then ⟨.error (.clientError status), c, attempt + 1, sleeps⟩
      else if attempt = maxRetries - 1 then ⟨.error (.serverError status), c, attempt + 1, sleeps⟩
      else attemptLoop key now net fuel (attempt + 1) c (sleeps ++ [2 ^ attempt])
    | .transportError =>
      if attempt = maxRetries - 1 then ⟨.error .networkError, c, attempt + 1, sleeps⟩
      else attemptLoop key now net fuel (attempt + 1) c (sleeps ++ [2 ^ attempt])
    | .otherError =>
      if attempt = maxRetries - 1 then ⟨.error .unexpectedError, c, attempt + 1, sleeps⟩
      else attemptLoop key now net fuel (attempt + 1) c (sleeps ++ [2 ^ attempt])

/-- `CoinMarketCapClient._make_request`: compute the cache key, consult
the cache (which may lazily evict), return a truthy cached payload
immediately, otherwise run the retry loop. -/
def makeRequest (endpoint : String) (params : List Param) (now : Nat)
    (c : Cache) (net : Nat → Outcome) : RunResult :=
  match getFromCache (getCacheKey endpoint params) now c with
  | (some data, c') =>
    if data.isTruthy then ⟨.ok data, c', 0, []⟩
    else attemptLoop (getCacheKey endpoint params) now net maxRetries 0 c' []
  | (none, c') => attemptLoop (getCacheKey endpoint params) now net maxRetries 0 c' []

/-- The fixed auxiliary-field list of `get_cryptocurrency_listing`. -/
def auxFields : String :=
  "ath,atl,high24h,low24h,num_market_pairs,cmc_rank,date_added,max_supply,circulating_supply,total_supply,volume_7d,volume_30d"

def listingEndpoint : String := "/cryptocurrency/listing"

/-- The `params` dict built by `get_cryptocurrency_listing`: the limit is
clamped with `min(limit, 500)`, and `platformId` is appended only when
`if platform_id:` holds — Python truthiness, so `None` and `0` both skip
it. -/
def listingParams (start limit : Int) (sortBy : String) (platformId : Option Int) :
    List Param :=
  [("start", .int start), ("limit", .int (min limit 500)), ("sortBy", .str sortBy),
   ("sortType", .str "desc"), ("convert", .str "USD"), ("cryptoType", .str "all"),
   ("tagType", .str "all"), ("audited", .str "false"), ("aux", .str auxFields)] ++
  (match platformId with
   | some pid => if pid != 0 then [("platformId", .int pid)] else []
   | none => [])

/-- Python `dict.get(k, d)` on a JSON value: `.error ()` is the
`AttributeError` raised when the receiver is not a dict. -/
def pyDictGetD (j : Json) (k : String) (d : Json) : Except Unit Json :=
  match j with
  | .obj fields => .ok ((((fields.find? (fun p => p.1 == k))).map (fun p => p.2)).getD d)
  | _ => .error ()

/-- The envelope extraction
`response.get("data", {}).get("cryptoCurrencyList", [])`. -/
def extractCryptoCurrencyList (resp : Json) : Except Unit Json :=
  (pyDictGetD resp "data" (.obj [])).bind (fun d => pyDictGetD d "cryptoCurrencyList" (.arr []))

/-- Observable outcome of `get_cryptocurrency_listing`: the extracted token
list, a raised `CoinMarketCapAPIError`, or a raised `AttributeError` from
the envelope extraction. -/
inductive ListingOutcome where
  | ok (tokens : Json)
  | apiError (e : CMCError)
  | pyError

/-- `CoinMarketCapClient.get_cryptocurrency_listing`: build the canonical
listing query, issue it through `_make_request`, extract the token list
from the envelope. -/
def getCryptocurrencyListing (start limit : Int) (sortBy : String)
    (platformId : Option Int) (now : Nat) (c : Cache) (net : Nat → Outcome) :
    ListingOutcome × Cache :=
  let r := makeRequest listingEndpoint (listingParams start limit sortBy platformId) now c net
  match r.result with
  | .error e => (.apiError e, r.cache)
  | .ok resp =>
    match extractCryptoCurrencyList resp with
    | .error _ => (.pyError, r.cache)
    | .ok tokens => (.ok tokens, r.cache)

/-! ## Chain registry (`src/utils/chains.py`) -/

/-- The `Chain` dataclass. -/
structure Chain where
  id : Int
  name : String
  symbol : String
  explorer : String
deriving DecidableEq

/-- The `CHAINS` dict, in its source (insertion) order — Python dicts
iterate in insertion order. -/
def chainsInOrder : List (String × Chain) :=
  [("ethereum", ⟨1027, "Ethereum", "ETH", "https://etherscan.io"⟩),
   ("base", ⟨199, "Base", "ETH", "https://basescan.org"⟩),
   ("solana", ⟨5426, "Solana", "SOL", "https://solscan.io"⟩),
   ("polygon", ⟨3890, "Polygon", "MATIC", "https://polygonscan.com"⟩),
   ("arbitrum", ⟨11841, "Arbitrum", "ETH", "https://arbiscan.io"⟩),
   ("optimism", ⟨11840, "Optimism", "ETH", "https://optimistic.etherscan.io"⟩),
   ("avalanche", ⟨5805, "Avalanche C-Chain", "AVAX", "https://snowtrace.io"⟩),
   ("bnb", ⟨1839, "BNB Chain", "BNB", "https://bscscan.com"⟩)]

/-- Python `str.lower()` (character-wise, as the ASCII chain names need).
Defined over the character list so that it evaluates in the kernel. -/
def pyToLower (s : String) : String := String.mk (s.data.map Char.toLower)

/-- Python `str.strip()`: drop whitespace from both ends. -/
def pyStrip (s : String) : String :=
  String.mk (((s.data.dropWhile Char.isWhitespace).reverse.dropWhile Char.isWhitespace).reverse)

/-- `get_chain`: `CHAINS.get(chain_name.lower())`. -/
def getChain (name : String) : Option Chain :=
  List.lookup (pyToLower name) chainsInOrder

/-- `list_supported_chains`: `sorted(CHAINS.keys())`. -/
def listSupportedChains : List String :=
  List.insertionSort keyLE (chainsInOrder.map Prod.fst)

/-- The normalisation step of `validate_chain`:
`chain_name.lower().strip()`. -/
def normalizeChain (name : String) : String := pyStrip (pyToLower name)

/-! ## Multi-chain handlers (`src/server.py`)

The handlers are modelled over an abstract per-chain fetch function which
stands for the `api_client` call they make
(`get_cryptocurrency_listing(limit, platform_id=chain.id)` resp.
`get_token_by_symbol(symbol, chain.id)`); the fetch either returns the
client's value or raises a `CoinMarketCapAPIError`.  Tokens are modelled
with exactly the fields the handlers access. -/

/-- One entry of a token's `quotes` list, with the fields accessed by the
handlers; each is optional because the code reads them with
`.get(k, 0)`. -/
structure Quote where
  marketCap : Option Rat
  volume24h : Option Rat
  price : Option Rat
deriving DecidableEq

/-- A token record as the handlers consume it: `symbol` via
`.get("symbol")`, `quotes` via `.get("quotes", [{}])[0]`. -/
structure Token where
  symbol : Option String
  quotes : Option (List Quote)
deriving DecidableEq

/-- Errors escaping a handler: a `ValidationError`/`ValueError` from input
validation, a propagated `CoinMarketCapAPIError`, or another Python
runtime error (`IndexError`/`AttributeError`). -/
inductive AggErr where
  | validation
  | api (e : CMCError)
  | py
deriving DecidableEq

/-- `t.get("quotes", [{}])[0].get("marketCap", 0)`: a missing `quotes` key
defaults to `[{}]` whose head is the empty dict (hence 0); a present but
empty `quotes` list makes `[0]` raise `IndexError`. -/
def tokenQuoteMcap (t : Token) : Except AggErr Rat :=
  match t.quotes with
  | none => .ok 0
  | some [] => .error .py
  | some (q :: _) => .ok (q.marketCap.getD 0)

/-- `t.get("quotes", [{}])[0].get("volume24h", 0)`, as `tokenQuoteMcap`. -/
def tokenQuoteVol (t : Token) : Except AggErr Rat :=
  match t.quotes with
  | none => .ok 0
  | some [] => .error .py
  | some (q :: _) => .ok (q.volume24h.getD 0)

/-- `quotes.get("price", 0)` after `quotes = token.get("quotes", [{}])[0]`
in `format_token_info` — the `price_raw` field used by the cross-chain
search. -/
def tokenPriceRaw (t : Token) : Except AggErr Rat :=
  match t.quotes with
  | none => .ok 0
  | some [] => .error .py
  | some (q :: _) => .ok (q.price.getD 0)

/-- One row of the `chain_stats` table built by `handle_compare_chains`
(formatting of the totals is rendering and kept numeric here). -/
structure ChainStat where
  name : String
  symbol : String
  tokenCount : Nat
  totalMcap : Rat
  totalVol : Rat
  topToken : Option String
deriving DecidableEq

/-- The per-chain body of the `handle_compare_chains` loop: under
`if tokens:` a row is appended (summing the first quote's market cap and
volume over all tokens, two passes as in the source); with an empty token
list nothing at all is appended. -/
def chainRow (chain : Chain) (tokens : List Token) : Except AggErr (Option ChainStat) :=
  if tokens.isEmpty then .ok none
  else
    match tokens.mapM tokenQuoteMcap with
    | .error e => .error e
    | .ok mcaps =>
      match tokens.mapM tokenQuoteVol with
      | .error e => .error e
      | .ok vols =>
        .ok (some { name := chain.name, symbol := chain.symbol,
                    tokenCount := tokens.length,
                    totalMcap := mcaps.sum, totalVol := vols.sum,
                    topToken := tokens.head?.bind Token.symbol })

/-- The `for chain_name in chain_names:` loop of `handle_compare_chains`:
one `get_chain` + listing fetch per chain, sequential, any raised
exception propagating at once. -/
def compareLoop (fetch : String → Except CMCError (List Token)) :
    List String → Except AggErr (List ChainStat)
  | [] => .ok []
  | name :: rest =>
    match getChain name with
    | none => .error .py
    | some chain =>
      match fetch name with
      | .error e => .error (.api e)
      | .ok tokens =>
        match chainRow chain tokens with
        | .error e => .error e
        | .ok none => compareLoop fetch rest
        | .ok (some row) =>
          match compareLoop fetch rest with
          | .error e => .error e
          | .ok rows => .ok (row :: rows)

/-- `validate_chain` (`src/utils/chains.py`): normalise and require
membership in `CHAINS`, else raise `ValueError`. -/
def validateChain (rawName : String) : Except AggErr String :=
  if (List.lookup (normalizeChain rawName) chainsInOrder).isSome
  then .ok (normalizeChain rawName) else .error .validation

/-- The list comprehension
`[validate_chain(c) for c in args["chains"]]` — sequential, first failure
raises. -/
def validateChains : List String → Except AggErr (List String)
  | [] => .ok []
  | n :: rest =>
    match validateChain n with
    | .error e => .error e
    | .ok v =>
      match validateChains rest with
      | .error e => .error e
      | .ok vs => .ok (v :: vs)

/-- `handle_compare_chains`: validate every chain name, enforce the 2–5
count bounds, then run the per-chain loop. -/
def handleCompareChains (fetch : String → Except CMCError (List Token))
    (rawChains : List String) : Except AggErr (List ChainStat) :=
  match validateChains rawChains with
  | .error e => .error e
  | .ok names =>
    if names.length < 2 then .error .validation
    else if 5 < names.length then .error .validation
    else compareLoop fetch names

/-- One row of `found_tokens` in `handle_search_token_across_chains`
(display fields other than the raw price are rendering). -/
structure FoundToken where
  chainName : String
  chainKey : String
  priceRaw : Rat
deriving DecidableEq

/-- The `for chain_name, chain in CHAINS.items():` loop of
`handle_search_token_across_chains`: one `get_token_by_symbol` call per
registry entry, in the order of the given list; a hit is formatted
(extracting `price_raw`, which can raise `IndexError`) and appended. -/
def searchLoop (fetchTok : Int → Except CMCError (Option Token)) :
    List (String × Chain) → Except AggErr (List FoundToken)
  | [] => .ok []
  | (key, chain) :: rest =>
    match fetchTok chain.id with
    | .error e => .error (.api e)
    | .ok none => searchLoop fetchTok rest
    | .ok (some t) =>
      match tokenPriceRaw t with
      | .error e => .error e
      | .ok p =>
        match searchLoop fetchTok rest with
        | .error e => .error e
        | .ok restFound => .ok (⟨chain.name, key, p⟩ :: restFound)

/-- The price-analysis epilogue of `handle_search_token_across_chains`:
with two or more hits, the highest price, the lowest price, and the
spread `(highest - lowest) / lowest * 100` guarded by `lowest > 0`. -/
def priceAnalysis (found : List FoundToken) : Option (Rat × Rat × Rat) :=
  if 1 < found.length then
    let prices := found.map FoundToken.priceRaw
    let highest := prices.foldl max (prices.headD 0)
    let lowest := prices.foldl min (prices.headD 0)
    some (highest, lowest, if 0 < lowest then (highest - lowest) / lowest * 100 else 0)
  else none

/-- The full search result: the hit rows plus the optional analysis. -/
structure SearchOut where
  found : List FoundToken
  analysis : Option (Rat × Rat × Rat)
deriving DecidableEq

/-- `handle_search_token_across_chains`, iterating the registry in its
insertion order. -/
def handleSearchAcross (fetchTok : Int → Except CMCError (Option Token)) :
    Except AggErr SearchOut :=
  match searchLoop fetchTok chainsInOrder with
  | .error e => .error e
  | .ok found => .ok ⟨found, priceAnalysis found⟩

/-- Well-formedness of the cache: every stored payload passed the `'data'`
membership check.  This is the reachable-state invariant of
`self._cache`, since `_set_cache` is only called after that check. -/
def cacheWF (c : Cache) : Prop :=
  ∀ e ∈ c, pyContainsDataField e.2.1 = .ok true

/-! ## Concrete example inputs used by the claim witnesses and
counterexamples -/

/-- A token with one fully-populated quote entry. -/
def tokEth : Token :=
  { symbol := some "ETH",
    quotes := some [{ marketCap := some 100, volume24h := some 50, price := some 10 }] }

/-- A listing fetch returning one token on ethereum and an empty list on
every other chain. -/
def fetchEthOnly : String → Except CMCError (List Token) := fun name =>
  if name == "ethereum" then .ok [tokEth] else .ok []

/-- A listing fetch failing on base with a client error and succeeding
elsewhere. -/
def fetchBaseFails : String → Except CMCError (List Token) := fun name =>
  if name == "base" then .error (.clientError 404) else .ok [tokEth]

/-- A per-chain token lookup failing on Base's platform id (199). -/
def fetchTokBaseFails : Int → Except CMCError (Option Token) := fun pid =>
  if pid == 199 then .error (.clientError 404) else .ok (some tokEth)

/-- A per-chain token lookup that finds the same token on every chain. -/
def fetchTokAllHit : Int → Except CMCError (Option Token) := fun _ =>
  .ok (some tokEth)

/-- A network oracle answering 500 on every attempt. -/
def netAll500 : Nat → Outcome := fun _ => .httpError 500

/-- A successful JSON body missing the top-level `data` field. -/
def bodyNoData : Json := .obj [("status", .str "ok")]

/-- A successful JSON body carrying the top-level `data` field. -/
def bodyWithData : Json := .obj [("data", .obj [("cryptoCurrencyList", .arr [])])]

/-- A network oracle whose every answer is a success missing `data`. -/
def netAllNoData : Nat → Outcome := fun _ => .success bodyNoData

/-- A network oracle answering a `data`-less success first, then a good
response. -/
def netBadThenGood : Nat → Outcome := fun i =>
  if i == 0 then .success bodyNoData else .success bodyWithData

/-! ## Helper lemmas: the lexicographic string order -/

theorem strLtB_asymm : ∀ a b : List Char, strLtB a b = true → strLtB b a = false := by
  intro a
  induction a with
  | nil => intro b; cases b <;> simp [strLtB]
  | cons x xs ih =>
    intro b
    cases b with
    | nil => simp [strLtB]
    | cons y ys =>
      simp only [strLtB]
      rcases lt_trichotomy x y with h | h | h
      · simp [h, lt_asymm h]
      · subst h
        simpa [lt_irrefl] using ih ys
      · simp [h, lt_asymm h]

theorem strLtB_trans :
    ∀ a b c : List Char, strLtB a b = true → strLtB b c = true → strLtB a c = true := by
  intro a
  induction a with
  | nil =>
    intro b c hab hbc
    cases c with
    | nil => cases b <;> simp [strLtB] at hab hbc
    | cons z zs => simp [strLtB]
  | cons x xs ih =>
    intro b c hab hbc
    cases b with
    | nil => simp [strLtB] at hab
    | cons y ys =>
      cases c with
      | nil => simp [strLtB] at hbc
      | cons z zs =>
        simp only [strLtB] at hab hbc ⊢
        rcases lt_trichotomy x y with hxy | hxy | hxy
        · rcases lt_trichotomy y z with hyz | hyz | hyz
          · simp [lt_trans hxy hyz]
          · subst hyz; simp [hxy]
          · simp [hyz, lt_asymm hyz] at hbc
        · subst hxy
          rcases lt_trichotomy x z with hyz | hyz | hyz
          · simp [hyz]
          · subst hyz
            simp only [lt_irrefl, if_false] at hab hbc ⊢
            exact ih ys zs hab hbc
          · simp [hyz, lt_asymm hyz] at hbc
        · simp [hxy, lt_asymm hxy] at hab

theorem strLtB_eq_of_not :
    ∀ a b : List Char, strLtB a b = false → strLtB b a = false → a = b := by
  intro a
  induction a with
  | nil => intro b hab _; cases b with
    | nil => rfl
    | cons y ys => simp [strLtB] at hab
  | cons x xs ih =>
    intro b hab hba
    cases b with
    | nil => simp [strLtB] at hba
    | cons y ys =>
      simp only [strLtB] at hab hba
      rcases lt_trichotomy x y with h | h | h
      · simp [h] at hab
      · subst h
        simp only [lt_irrefl, if_false] at hab hba
        rw [ih ys hab hba]
      · simp [h] at hba

theorem keyLE_iff (s t : String) : keyLE s t ↔ strLtB t.data s.data = false := by
  simp [keyLE, strLeB]

theorem keyLE_total (s t : String) : keyLE s t ∨ keyLE t s := by
  rw [keyLE_iff, keyLE_iff]
  by_cases h : strLtB t.data s.data = true
  · exact Or.inr (strLtB_asymm _ _ h)
  · exact Or.inl (Bool.not_eq_true _ ▸ h)

theorem keyLE_trans {s t u : String} (h1 : keyLE s t) (h2 : keyLE t u) : keyLE s u := by
  rw [keyLE_iff] at h1 h2 ⊢
  by_contra hc
  have hus : strLtB u.data s.data = true := by
    cases h : strLtB u.data s.data
    · exact absurd h hc
    · rfl
  by_cases hst : strLtB s.data t.data = true
  · have : strLtB u.data t.data = true := strLtB_trans _ _ _ hus hst
    exact absurd this (by simp [h2])
  · have hst' : strLtB s.data t.data = false := by
      cases h : strLtB s.data t.data
      · rfl
      · exact absurd h hst
    have := strLtB_eq_of_not _ _ hst' h1
    rw [this] at hus
    exact absurd hus (by simp [h2])

theorem keyLT_of_keyLE_of_ne {s t : String} (hle : keyLE s t) (hne : s ≠ t) : keyLT s t := by
  rw [keyLE_iff] at hle
  by_cases h : strLtB s.data t.data = true
  · exact h
  · have h' : strLtB s.data t.data = false := by
      cases hh : strLtB s.data t.data
      · rfl
      · exact absurd hh h
    exact absurd (String.ext (strLtB_eq_of_not _ _ h' hle)) hne

theorem keyLT_asymm {s t : String} (h1 : keyLT s t) (h2 : keyLT t s) : False := by
  have := strLtB_asymm _ _ h1
  rw [h2] at this
  exact Bool.noConfusion this

/-! ## Helper lemmas: cache and retry loop -/

theorem getFromCache_miss (key : String) (now : Nat) (c : Cache)
    (h : cacheLookup c key = none) : getFromCache key now c = (none, c) := by
  simp [getFromCache, h]

theorem getFromCache_live (key : String) (now : Nat) (c : Cache) (data : Json) (ts : Nat)
    (h : cacheLookup c key = some (data, ts)) (hts : now - ts < cacheTtlSeconds) :
    getFromCache key now c = (some data, c) := by
  simp [getFromCache, h, hts]

theorem getFromCache_expired (key : String) (now : Nat) (c : Cache) (data : Json) (ts : Nat)
    (h : cacheLookup c key = some (data, ts)) (hts : cacheTtlSeconds ≤ now - ts) :
    getFromCache key now c = (none, cacheErase c key) := by
  simp [getFromCache, h, Nat.not_lt.mpr hts]

theorem makeRequest_miss (endpoint : String) (params : List Param) (now : Nat)
    (c : Cache) (net : Nat → Outcome)
    (h : cacheLookup c (getCacheKey endpoint params) = none) :
    makeRequest endpoint params now c net =
      attemptLoop (getCacheKey endpoint params) now net maxRetries 0 c [] := by
  simp [makeRequest, getFromCache_miss _ now _ h]

theorem isTruthy_of_dataField {b : Json} (h : pyContainsDataField b = .ok true) :
    b.isTruthy = true := by
  cases b with
  | obj fs =>
    cases fs with
    | nil => simp [pyContainsDataField] at h
    | cons f fs => simp [Json.isTruthy]
  | arr es =>
    cases es with
    | nil => simp [pyContainsDataField] at h
    | cons e es => simp [Json.isTruthy]
  | str s =>
    simp only [pyContainsDataField, Except.ok.injEq] at h
    by_cases hs : s = ""
    · subst hs
      exact absurd h (by decide)
    · simpa [Json.isTruthy] using hs
  | null => simp [pyContainsDataField] at h
  | bool b => simp [pyContainsDataField] at h
  | num q => simp [pyContainsDataField] at h

theorem attemptLoop_success_ok (key : String) (now : Nat) (net : Nat → Outcome)
    (fuel attempt : Nat) (c : Cache) (sleeps : List Nat) (body : Json)
    (hnet : net attempt = .success body) (hdata : pyContainsDataField body = .ok true) :
    attemptLoop key now net (fuel + 1) attempt c sleeps =
      ⟨.ok body, cacheSet c key (body, now), attempt + 1, sleeps⟩ := by
  simp [attemptLoop, hnet, hdata]

theorem attemptLoop_success_bad_retry (key : String) (now : Nat) (net : Nat → Outcome)
    (fuel attempt : Nat) (c : Cache) (sleeps : List Nat) (body : Json)
    (hnet : net attempt = .success body) (hdata : pyContainsDataField body ≠ .ok true)
    (hlast : attempt ≠ maxRetries - 1) :
    attemptLoop key now net (fuel + 1) attempt c sleeps =
      attemptLoop key now net fuel (attempt + 1) c (sleeps ++ [2 ^ attempt]) := by
  rcases h : pyContainsDataField body with e | b
  · simp [attemptLoop, hnet, h, hlast]
  · cases b
    · simp [attemptLoop, hnet, h, hlast]
    · exact absurd h hdata

theorem attemptLoop_success_bad_last (key : String) (now : Nat) (net : Nat → Outcome)
    (fuel : Nat) (c : Cache) (sleeps : List Nat) (body : Json)
    (hnet : net (maxRetries - 1) = .success body)
    (hdata : pyContainsDataField body ≠ .ok true) :
    attemptLoop key now net (fuel + 1) (maxRetries - 1) c sleeps =
      ⟨.error .unexpectedError, c, maxRetries, sleeps⟩ := by
  have hnet2 : net 2 = .success body := hnet
  rcases h : pyContainsDataField body with e | b
  · simp [attemptLoop, hnet2, h, maxRetries]
  · cases b
    · simp [attemptLoop, hnet2, h, maxRetries]
    · exact absurd h hdata

theorem attemptLoop_client (key : String) (now : Nat) (net : Nat → Outcome)
    (fuel attempt : Nat) (c : Cache) (sleeps : List Nat) (s : Nat)
    (hnet : net attempt = .httpError s) (h4 : 400 ≤ s ∧ s < 500) :
    attemptLoop key now net (fuel + 1) attempt c sleeps =
      ⟨.error (.clientError s), c, attempt + 1, sleeps⟩ := by
  simp [attemptLoop, hnet, h4]

theorem attemptLoop_http_retry (key : String) (now : Nat) (net : Nat → Outcome)
    (fuel attempt : Nat) (c : Cache) (sleeps : List Nat) (s : Nat)
    (hnet : net attempt = .httpError s) (h4 : ¬(400 ≤ s ∧ s < 500))
    (hlast : attempt ≠ maxRetries - 1) :
    attemptLoop key now net (fuel + 1) attempt c sleeps =
      attemptLoop key now net fuel (attempt + 1) c (sleeps ++ [2 ^ attempt]) := by
  simp [attemptLoop, hnet, h4, hlast]

theorem attemptLoop_http_last (key : String) (now : Nat) (net : Nat → Outcome)
    (fuel : Nat) (c : Cache) (sleeps : List Nat) (s : Nat)
    (hnet : net (maxRetries - 1) = .httpError s) (h4 : ¬(400 ≤ s ∧ s < 500)) :
    attemptLoop key now net (fuel + 1) (maxRetries - 1) c sleeps =
      ⟨.error (.serverError s), c, maxRetries, sleeps⟩ := by
  have hnet2 : net 2 = .httpError s := hnet
  simp [attemptLoop, hnet2, h4, maxRetries]

/-! ## Helper lemmas: the cache well-formedness invariant -/

theorem cacheErase_wf {c : Cache} (k : String) (hc : cacheWF c) : cacheWF (cacheErase c k) := by
  intro e he
  exact hc e (List.mem_of_mem_filter he)

theorem cacheSet_wf {c : Cache} (k : String) (b : Json) (ts : Nat) (hc : cacheWF c)
    (hb : pyContainsDataField b = .ok true) : cacheWF (cacheSet c k (b, ts)) := by
  intro e he
  rcases List.mem_append.mp he with h | h
  · exact cacheErase_wf k hc e h
  · rcases List.mem_singleton.mp h with rfl
    exact hb

theorem attemptLoop_wf (key : String) (now : Nat) (net : Nat → Outcome) :
    ∀ fuel attempt (c : Cache) (sleeps : List Nat), cacheWF c →
      cacheWF (attemptLoop key now net fuel attempt c sleeps).cache := by
  intro fuel
  induction fuel with
  | zero => intro attempt c sleeps hc; exact hc
  | succ fuel ih =>
    intro attempt c sleeps hc
    cases hnet : net attempt with
    | success body =>
      rcases hdata : pyContainsDataField body with e | b
      · by_cases hlast : attempt = maxRetries - 1
        · subst hlast
          simpa [attemptLoop, hnet, hdata] using hc
        · simpa [attemptLoop, hnet, hdata, hlast] using ih _ _ _ hc
      · cases b
        · by_cases hlast : attempt = maxRetries - 1
          · subst hlast
            simpa [attemptLoop, hnet, hdata] using hc
          · simpa [attemptLoop, hnet, hdata, hlast] using ih _ _ _ hc
        · simpa [attemptLoop, hnet, hdata] using cacheSet_wf key body now hc hdata
    | httpError s =>
      by_cases h4 : 400 ≤ s ∧ s < 500
      · simpa [attemptLoop, hnet, h4] using hc
      · by_cases hlast : attempt = maxRetries - 1
        · subst hlast
          simpa [attemptLoop, hnet, h4] using hc
        · simpa [attemptLoop, hnet, h4, hlast] using ih _ _ _ hc
    | transportError =>
      by_cases hlast : attempt = maxRetries - 1
      · subst hlast
        simpa [attemptLoop, hnet] using hc
      · simpa [attemptLoop, hnet, hlast] using ih _ _ _ hc
    | otherError =>
      by_cases hlast : attempt = maxRetries - 1
      · subst hlast
        simpa [attemptLoop, hnet] using hc
      · simpa [attemptLoop, hnet, hlast] using ih _ _ _ hc

theorem getFromCache_wf (key : String) (now : Nat) {c : Cache} (hc : cacheWF c) :
    cacheWF (getFromCache key now c).2 := by
  unfold getFromCache
  rcases h : cacheLookup c key with _ | ⟨data, ts⟩
  · exact hc
  · by_cases hts : now - ts < cacheTtlSeconds
    · simpa [hts] using hc
    · simpa [hts] using cacheErase_wf key hc

/-! ## Helper lemmas: the multi-chain handler loops -/

theorem compareLoop_ok_fetch (fetch : String → Except CMCError (List Token)) :
    ∀ (names : List String) (stats : List ChainStat),
      compareLoop fetch names = .ok stats →
      ∀ name ∈ names, ∃ ts, fetch name = .ok ts := by
  intro names
  induction names with
  | nil => intro stats _ name hmem; exact absurd hmem (List.not_mem_nil name)
  | cons n rest ih =>
    intro stats hok name hmem
    simp only [compareLoop] at hok
    split at hok
    · exact Except.noConfusion hok
    next chain hchain =>
      split at hok
      · exact Except.noConfusion hok
      next tokens hfetch =>
        cases hmem with
        | head => exact ⟨tokens, hfetch⟩
        | tail _ hmem =>
          split at hok
          · exact Except.noConfusion hok
          · exact ih stats hok name hmem
          next row hrow =>
            split at hok
            · exact Except.noConfusion hok
            next rows hrest => exact ih rows hrest name hmem

theorem validateChains_ok (rawChains names : List String)
    (h : validateChains rawChains = .ok names) :
    names = rawChains.map normalizeChain := by
  induction rawChains generalizing names with
  | nil =>
    rw [validateChains] at h
    cases h
    rfl
  | cons n rest ih =>
    rw [validateChains] at h
    rcases hv : validateChain n with e | v
    · rw [hv] at h; exact Except.noConfusion h
    · rw [hv] at h
      rcases hr : validateChains rest with e | vs
      · rw [hr] at h; exact Except.noConfusion h
      · rw [hr] at h
        cases h
        have hvv : v = normalizeChain n := by
          unfold validateChain at hv
          by_cases hm : (List.lookup (normalizeChain n) chainsInOrder).isSome
          · rw [if_pos hm] at hv; cases hv; rfl
          · rw [if_neg hm] at hv; exact Except.noConfusion hv
        rw [hvv, ih vs hr]
        rfl

theorem searchLoop_ok_fetch (fetchTok : Int → Except CMCError (Option Token)) :
    ∀ (l : List (String × Chain)) (out : List FoundToken),
      searchLoop fetchTok l = .ok out →
      ∀ kc ∈ l, ∃ r, fetchTok kc.2.id = .ok r := by
  intro l
  induction l with
  | nil => intro out _ kc hmem; exact absurd hmem (List.not_mem_nil kc)
  | cons kc0 rest ih =>
    intro out hok kc hmem
    obtain ⟨key, chain⟩ := kc0
    simp only [searchLoop] at hok
    split at hok
    · exact Except.noConfusion hok
    next hfetch =>
      cases hmem with
      | head => exact ⟨none, hfetch⟩
      | tail _ hmem => exact ih out hok kc hmem
    next t hfetch =>
      cases hmem with
      | head => exact ⟨some t, hfetch⟩
      | tail _ hmem =>
        split at hok
        · exact Except.noConfusion hok
        next p hp =>
          split at hok
          · exact Except.noConfusion hok
          next restFound hrest => exact ih restFound hrest kc hmem

theorem searchLoop_pure_keys (f : Int → Option Token)
    (hq : ∀ pid t, f pid = some t → t.quotes ≠ some []) :
    ∀ l : List (String × Chain),
      Except.map (List.map FoundToken.chainKey) (searchLoop (fun pid => .ok (f pid)) l) =
        .ok ((l.filter (fun p => (f p.2.id).isSome)).map Prod.fst) := by
  intro l
  induction l with
  | nil => rfl
  | cons kc rest ih =>
    obtain ⟨key, chain⟩ := kc
    rcases hf : f chain.id with _ | t
    · simpa [searchLoop, hf, List.filter] using ih
    · have hpr : ∃ p, tokenPriceRaw t = .ok p := by
        rcases hqt : t.quotes with _ | qs
        · exact ⟨0, by simp [tokenPriceRaw, hqt]⟩
        · cases qs with
          | nil => exact absurd hqt (hq chain.id t hf)
          | cons q qs => exact ⟨q.price.getD 0, by simp [tokenPriceRaw, hqt]⟩
      obtain ⟨p, hp⟩ := hpr
      rcases hrest : searchLoop (fun pid => .ok (f pid)) rest with e | restFound
      · rw [hrest] at ih; exact Except.noConfusion ih
      · rw [hrest] at ih
        have ih' : List.map FoundToken.chainKey restFound =
            (rest.filter (fun p => (f p.2.id).isSome)).map Prod.fst := by
          simpa [Except.map] using ih
        simp [searchLoop, hf, hp, hrest, List.filter, Except.map, ih']

/-! ## Claim theorems -/

/-- Claim C1 (refuted by the code, supporting the code-bug verdict):
running `handle_compare_chains` on `["ethereum", "base"]` with a listing
fetch that returns one token on ethereum and an empty token list on base
yields only the Ethereum row — the `if tokens:` guard silently omits the
zero-token chain instead of emitting a row with zero aggregates. -/
theorem C1_empty_chain_row_dropped :
    handleCompareChains fetchEthOnly ["ethereum", "base"] =
      .ok [{ name := "Ethereum", symbol := "ETH", tokenCount := 1,
             totalMcap := 100, totalVol := 50, topToken := some "ETH" }] ∧
    Except.map (List.map ChainStat.name)
      (handleCompareChains fetchEthOnly ["ethereum", "base"]) = .ok ["Ethereum"] := by
  have h : handleCompareChains fetchEthOnly ["ethereum", "base"] =
      .ok [{ name := "Ethereum", symbol := "ETH", tokenCount := 1,
             totalMcap := 100 + 0, totalVol := 50 + 0, topToken := some "ETH" }] := rfl
  constructor
  · rw [h]
    norm_num
  · rw [h]
    rfl

/-- Claim C2 counterexample: a client-error failure on one chain aborts
the whole aggregation — both `handle_compare_chains` and
`handle_search_token_across_chains` surface the per-chain error instead
of returning a result covering the other chains. -/
theorem C2_counterexample :
    handleCompareChains fetchBaseFails ["ethereum", "base"] =
      .error (.api (.clientError 404)) ∧
    handleSearchAcross fetchTokBaseFails = .error (.api (.clientError 404)) :=
  ⟨rfl, rfl⟩

/-- Claim C2 (amended): per-chain failures are NOT isolated — whenever
the per-chain client call fails for any chain in the requested (resp.
registered) list, the whole aggregation returns an error; it never
returns a result covering the other chains. -/
theorem C2_amended_failures_propagate :
    (∀ (fetch : String → Except CMCError (List Token)) (rawChains : List String)
        (name : String) (e : CMCError) (stats : List ChainStat),
        name ∈ rawChains → fetch (normalizeChain name) = .error e →
        handleCompareChains fetch rawChains ≠ .ok stats) ∧
    (∀ (fetchTok : Int → Except CMCError (Option Token)) (key : String) (chain : Chain)
        (e : CMCError) (out : SearchOut),
        (key, chain) ∈ chainsInOrder → fetchTok chain.id = .error e →
        handleSearchAcross fetchTok ≠ .ok out) := by
  constructor
  · intro fetch rawChains name e stats hmem hfetch hok
    unfold handleCompareChains at hok
    split at hok
    · exact Except.noConfusion hok
    next names hval =>
      split at hok
      · exact Except.noConfusion hok
      · split at hok
        · exact Except.noConfusion hok
        · have hnames := validateChains_ok rawChains names hval
          have hmem' : normalizeChain name ∈ names := by
            rw [hnames]
            exact List.mem_map_of_mem _ hmem
          obtain ⟨ts, hts⟩ := compareLoop_ok_fetch fetch names stats hok (normalizeChain name) hmem'
          rw [hfetch] at hts
          exact Except.noConfusion hts
  · intro fetchTok key chain e out hmem hfetch hok
    unfold handleSearchAcross at hok
    split at hok
    · exact Except.noConfusion hok
    next found hfound =>
      obtain ⟨r, hr⟩ := searchLoop_ok_fetch fetchTok chainsInOrder found hfound (key, chain) hmem
      rw [hfetch] at hr
      exact Except.noConfusion hr

/-- Witness for the amended C2 at a concrete failing fetch. -/
theorem C2_amended_witness :
    handleCompareChains (fun _ => .error .networkError) ["ethereum", "base"] ≠ .ok [] ∧
    handleSearchAcross (fun _ => .error .networkError) ≠ .ok ⟨[], none⟩ :=
  ⟨C2_amended_failures_propagate.1 _ _ "ethereum" .networkError [] (by simp) rfl,
   C2_amended_failures_propagate.2 _ "ethereum"
     ⟨1027, "Ethereum", "ETH", "https://etherscan.io"⟩ .networkError ⟨[], none⟩
     (by simp [chainsInOrder]) rfl⟩

/-- Claim C3 counterexample: under a persistent 500, the recorded backoff
sleeps are `2^attempt` = 1s then 2s — not the 0s/1s/2s schedule the claim
ascribes to attempts 0, 1, 2. -/
theorem C3_counterexample :
    (makeRequest "/cryptocurrency/listing" [] 0 [] netAll500).sleeps = [1, 2] ∧
    ([1, 2] : List Nat) ≠ [0, 1] :=
  ⟨rfl, by decide⟩

/-- Claim C3 (amended): on a cache miss with every attempt answering a
5xx, the request performs exactly 3 attempts, sleeps `2^attempt` seconds
(1s after attempt 0, 2s after attempt 1, none after the final attempt)
and surfaces a terminal server error carrying the final status; the cache
is untouched. -/
theorem C3_amended_backoff (endpoint : String) (params : List Param) (now : Nat)
    (c : Cache) (net : Nat → Outcome) (s2 : Nat)
    (hmiss : cacheLookup c (getCacheKey endpoint params) = none)
    (h5xx : ∀ i, ∃ s, net i = .httpError s ∧ 500 ≤ s)
    (h2 : net 2 = .httpError s2) :
    makeRequest endpoint params now c net = ⟨.error (.serverError s2), c, 3, [1, 2]⟩ := by
  obtain ⟨s0, hn0, hs0⟩ := h5xx 0
  obtain ⟨s1, hn1, hs1⟩ := h5xx 1
  obtain ⟨s2', hn2', hs2'⟩ := h5xx 2
  have hs2 : 500 ≤ s2 := by
    have heq := h2.symm.trans hn2'
    injection heq with h
    rw [h]
    exact hs2'
  have h40 : ¬(400 ≤ s0 ∧ s0 < 500) := by intro h; omega
  have h41 : ¬(400 ≤ s1 ∧ s1 < 500) := by intro h; omega
  have h42 : ¬(400 ≤ s2 ∧ s2 < 500) := by intro h; omega
  have t1 : attemptLoop (getCacheKey endpoint params) now net 3 0 c [] =
      attemptLoop (getCacheKey endpoint params) now net 2 1 c [1] := by
    have := attemptLoop_http_retry (getCacheKey endpoint params) now net 2 0 c [] s0
      hn0 h40 (by decide)
    simpa using this
  have t2 : attemptLoop (getCacheKey endpoint params) now net 2 1 c [1] =
      attemptLoop (getCacheKey endpoint params) now net 1 2 c [1, 2] := by
    have := attemptLoop_http_retry (getCacheKey endpoint params) now net 1 1 c [1] s1
      hn1 h41 (by decide)
    simpa using this
  have t3 : attemptLoop (getCacheKey endpoint params) now net 1 2 c [1, 2] =
      ⟨.error (.serverError s2), c, 3, [1, 2]⟩ := by
    have := attemptLoop_http_last (getCacheKey endpoint params) now net 0 c [1, 2] s2 h2 h42
    simpa [maxRetries] using this
  rw [makeRequest_miss endpoint params now c net hmiss, show maxRetries = 3 from rfl, t1, t2, t3]

/-- Witness for the amended C3 at a concrete persistent-500 oracle. -/
theorem C3_amended_witness :
    makeRequest "/cryptocurrency/listing" [] 0 [] netAll500 =
      ⟨.error (.serverError 500), [], 3, [1, 2]⟩ :=
  C3_amended_backoff _ _ _ _ _ 500 rfl (fun _ => ⟨500, rfl, by norm_num⟩) rfl

/-- Claim C4 counterexample: with a token found on every chain, the
cross-chain search assembles its hits in the registry's insertion order
(ethereum first), which differs from the lexicographically sorted key
order (arbitrum first) that `list_supported_chains` returns. -/
theorem C4_counterexample :
    Except.map (List.map FoundToken.chainKey) (searchLoop fetchTokAllHit chainsInOrder) =
      .ok ["ethereum", "base", "solana", "polygon", "arbitrum", "optimism", "avalanche", "bnb"] ∧
    listSupportedChains =
      ["arbitrum", "avalanche", "base", "bnb", "ethereum", "optimism", "polygon", "solana"] ∧
    (["ethereum", "base", "solana", "polygon", "arbitrum", "optimism", "avalanche", "bnb"] :
        List String) ≠
      ["arbitrum", "avalanche", "base", "bnb", "ethereum", "optimism", "polygon", "solana"] :=
  ⟨rfl, rfl, by decide⟩

/-- Claim C4 (amended): `handle_search_token_across_chains` visits the
chains in the registry's insertion order — ethereum, base, solana,
polygon, arbitrum, optimism, avalanche, bnb — and, when every per-chain
lookup succeeds, the assembled hits are exactly the hit chains in that
same order. -/
theorem C4_amended_insertion_order :
    chainsInOrder.map Prod.fst =
      ["ethereum", "base", "solana", "polygon", "arbitrum", "optimism", "avalanche", "bnb"] ∧
    ∀ (f : Int → Option Token), (∀ pid t, f pid = some t → t.quotes ≠ some []) →
      Except.map (List.map FoundToken.chainKey)
          (searchLoop (fun pid => .ok (f pid)) chainsInOrder) =
        .ok ((chainsInOrder.filter (fun p => (f p.2.id).isSome)).map Prod.fst) :=
  ⟨rfl, fun f hq => searchLoop_pure_keys f hq chainsInOrder⟩

/-- Witness for the amended C4 at an everywhere-found token. -/
theorem C4_amended_witness :
    Except.map (List.map FoundToken.chainKey)
        (searchLoop (fun pid => .ok ((fun _ => some tokEth) pid)) chainsInOrder) =
      .ok ((chainsInOrder.filter
        (fun p => ((fun _ => some tokEth) p.2.id).isSome)).map Prod.fst) :=
  C4_amended_insertion_order.2 (fun _ => some tokEth)
    (fun _ t h => by injection h with h'; rw [← h']; simp [tokEth])

/-- Claim C5: on a cache miss, a response with HTTP status in [400,500)
raises a terminal client error after exactly one network attempt, with no
retry, no backoff sleep, and the cache unchanged (nothing written). -/
theorem C5_client_error_fails_immediately (endpoint : String) (params : List Param)
    (now : Nat) (c : Cache) (net : Nat → Outcome) (s : Nat)
    (hmiss : cacheLookup c (getCacheKey endpoint params) = none)
    (hnet : net 0 = .httpError s) (hlo : 400 ≤ s) (hhi : s < 500) :
    makeRequest endpoint params now c net = ⟨.error (.clientError s), c, 1, []⟩ := by
  rw [makeRequest_miss endpoint params now c net hmiss, show maxRetries = 3 from rfl]
  have := attemptLoop_client (getCacheKey endpoint params) now net 2 0 c [] s hnet ⟨hlo, hhi⟩
  simpa using this

/-- Witness for C5 at a concrete 404. -/
theorem C5_witness :
    makeRequest "/cryptocurrency/listing" [] 0 [] (fun _ => .httpError 404) =
      ⟨.error (.clientError 404), [], 1, []⟩ :=
  C5_client_error_fails_immediately _ _ _ _ _ 404 rfl rfl (by norm_num) (by norm_num)

/-- Claim C6: (1) a cache entry whose age reaches the 60-second TTL is
never returned — the lookup deletes it and reports a miss; (2) when a
live entry exists for the computed key (its payload carrying the `data`
field, as every stored payload does), `request()` returns it with zero
network attempts and no sleeps; (3) the well-formedness invariant — every
cached payload passed the `data` check — is preserved by every request. -/
theorem C6_cache_ttl_invariant :
    (∀ (key : String) (now : Nat) (c : Cache) (data : Json) (ts : Nat),
        cacheLookup c key = some (data, ts) → cacheTtlSeconds ≤ now - ts →
        getFromCache key now c = (none, cacheErase c key)) ∧
    (∀ (endpoint : String) (params : List Param) (now : Nat) (c : Cache)
        (net : Nat → Outcome) (data : Json) (ts : Nat),
        cacheLookup c (getCacheKey endpoint params) = some (data, ts) →
        now - ts < cacheTtlSeconds → pyContainsDataField data = .ok true →
        makeRequest endpoint params now c net = ⟨.ok data, c, 0, []⟩) ∧
    (∀ (endpoint : String) (params : List Param) (now : Nat) (c : Cache)
        (net : Nat → Outcome), cacheWF c →
        cacheWF (makeRequest endpoint params now c net).cache) := by
  refine ⟨fun key now c data ts h hts => getFromCache_expired key now c data ts h hts,
          ?_, ?_⟩
  · intro endpoint params now c net data ts h hts hdata
    have hget := getFromCache_live (getCacheKey endpoint params) now c data ts h hts
    simp [makeRequest, hget, isTruthy_of_dataField hdata]
  · intro endpoint params now c net hc
    have hwf2 := getFromCache_wf (getCacheKey endpoint params) now hc
    unfold makeRequest
    rcases hg : getFromCache (getCacheKey endpoint params) now c with ⟨cached, c'⟩
    rw [hg] at hwf2
    cases cached with
    | none => simpa using attemptLoop_wf _ now net maxRetries 0 c' [] hwf2
    | some data =>
      by_cases ht : data.isTruthy
      · simpa [ht] using hwf2
      · simpa [ht] using attemptLoop_wf _ now net maxRetries 0 c' [] hwf2

/-- Witness for C6: an exactly-60s-old entry is evicted and missed; a
30s-old entry is served with zero attempts; the invariant holds of the
cache a request leaves behind. -/
theorem C6_witness :
    getFromCache "k" 60 [("k", (Json.obj [("data", Json.null)], 0))] =
      (none, cacheErase [("k", (Json.obj [("data", Json.null)], 0))] "k") ∧
    makeRequest "/e" [] 30 [("/e?", (Json.obj [("data", Json.null)], 0))] netAll500 =
      ⟨.ok (Json.obj [("data", Json.null)]),
       [("/e?", (Json.obj [("data", Json.null)], 0))], 0, []⟩ ∧
    cacheWF (makeRequest "/e" [] 0 [] netAll500).cache :=
  ⟨C6_cache_ttl_invariant.1 "k" 60 _ _ 0 rfl (by decide),
   C6_cache_ttl_invariant.2.1 "/e" [] 30 _ netAll500 _ 0 rfl (by decide) rfl,
   C6_cache_ttl_invariant.2.2 "/e" [] 0 [] netAll500
     (fun e he => absurd he (List.not_mem_nil e))⟩

/-- Claim C7: the cache key is order-independent — two parameter maps
with the same key/value pairs in any insertion order (keys unique, as in
a Python dict) produce the same cache key. -/
theorem C7_cache_key_order_independent (endpoint : String) (l1 l2 : List Param)
    (hperm : l1.Perm l2) (hnodup : (l1.map Prod.fst).Nodup) :
    getCacheKey endpoint l1 = getCacheKey endpoint l2 := by
  haveI : IsTotal Param paramKeyLE := ⟨fun p q => keyLE_total p.1 q.1⟩
  haveI : IsTrans Param paramKeyLE := ⟨fun _ _ _ h1 h2 => keyLE_trans h1 h2⟩
  haveI : IsAntisymm Param paramKeyLT := ⟨fun _ _ h1 h2 => (keyLT_asymm h1 h2).elim⟩
  have hp1 : List.Perm (sortedParams l1) l1 := List.perm_insertionSort paramKeyLE l1
  have hp2 : List.Perm (sortedParams l2) l2 := List.perm_insertionSort paramKeyLE l2
  have hps : List.Perm (sortedParams l1) (sortedParams l2) :=
    hp1.trans (hperm.trans hp2.symm)
  have hs1 : List.Sorted paramKeyLE (sortedParams l1) :=
    List.sorted_insertionSort paramKeyLE l1
  have hs2 : List.Sorted paramKeyLE (sortedParams l2) :=
    List.sorted_insertionSort paramKeyLE l2
  have hn2 : (l2.map Prod.fst).Nodup := ((hperm.map Prod.fst).nodup_iff).mp hnodup
  have hne1 : List.Pairwise (fun p q : Param => p.1 ≠ q.1) (sortedParams l1) :=
    List.pairwise_map.mp ((hp1.map Prod.fst).nodup_iff.mpr hnodup)
  have hne2 : List.Pairwise (fun p q : Param => p.1 ≠ q.1) (sortedParams l2) :=
    List.pairwise_map.mp ((hp2.map Prod.fst).nodup_iff.mpr hn2)
  have hlt1 : List.Sorted paramKeyLT (sortedParams l1) :=
    (List.Pairwise.and hs1 hne1).imp (fun h => keyLT_of_keyLE_of_ne h.1 h.2)
  have hlt2 : List.Sorted paramKeyLT (sortedParams l2) :=
    (List.Pairwise.and hs2 hne2).imp (fun h => keyLT_of_keyLE_of_ne h.1 h.2)
  have hsorted : sortedParams l1 = sortedParams l2 :=
    List.eq_of_perm_of_sorted hps hlt1 hlt2
  unfold getCacheKey
  rw [hsorted]

/-- Witness for C7 at `{a:1, b:2}` against `{b:2, a:1}`. -/
theorem C7_witness :
    getCacheKey "/cryptocurrency/listing" [("a", .int 1), ("b", .int 2)] =
      getCacheKey "/cryptocurrency/listing" [("b", .int 2), ("a", .int 1)] :=
  C7_cache_key_order_independent _ _ _ (by decide) (by decide)

/-- Claim C8: a successful response missing the top-level `data` field is
never cached and is retryable: (1) if every attempt yields such a body,
the request performs all 3 attempts with backoff sleeps 1s and 2s and
then surfaces a terminal error, the cache unchanged; (2) if attempt 0
yields such a body and attempt 1 a good one, the bad body triggers a 1s
backoff and a retry, and only the good body is cached and returned. -/
theorem C8_missing_data_retryable (endpoint : String) (params : List Param) (now : Nat)
    (c : Cache) (net : Nat → Outcome) (body good : Json)
    (hmiss : cacheLookup c (getCacheKey endpoint params) = none) :
    ((∀ i, ∃ b, net i = .success b ∧ pyContainsDataField b ≠ .ok true) →
      makeRequest endpoint params now c net = ⟨.error .unexpectedError, c, 3, [1, 2]⟩) ∧
    (net 0 = .success body → pyContainsDataField body ≠ .ok true →
     net 1 = .success good → pyContainsDataField good = .ok true →
      makeRequest endpoint params now c net =
        ⟨.ok good, cacheSet c (getCacheKey endpoint params) (good, now), 2, [1]⟩) := by
  constructor
  · intro hbad
    obtain ⟨b0, hn0, hb0⟩ := hbad 0
    obtain ⟨b1, hn1, hb1⟩ := hbad 1
    obtain ⟨b2, hn2, hb2⟩ := hbad 2
    have t1 : attemptLoop (getCacheKey endpoint params) now net 3 0 c [] =
        attemptLoop (getCacheKey endpoint params) now net 2 1 c [1] := by
      have := attemptLoop_success_bad_retry (getCacheKey endpoint params) now net 2 0 c []
        b0 hn0 hb0 (by decide)
      simpa using this
    have t2 : attemptLoop (getCacheKey endpoint params) now net 2 1 c [1] =
        attemptLoop (getCacheKey endpoint params) now net 1 2 c [1, 2] := by
      have := attemptLoop_success_bad_retry (getCacheKey endpoint params) now net 1 1 c [1]
        b1 hn1 hb1 (by decide)
      simpa using this
    have t3 : attemptLoop (getCacheKey endpoint params) now net 1 2 c [1, 2] =
        ⟨.error .unexpectedError, c, 3, [1, 2]⟩ := by
      have := attemptLoop_success_bad_last (getCacheKey endpoint params) now net 0 c [1, 2]
        b2 hn2 hb2
      simpa [maxRetries] using this
    rw [makeRequest_miss endpoint params now c net hmiss, show maxRetries = 3 from rfl,
       t1, t2, t3]
  · intro h0 hb h1 hg
    have t1 : attemptLoop (getCacheKey endpoint params) now net 3 0 c [] =
        attemptLoop (getCacheKey endpoint params) now net 2 1 c [1] := by
      have := attemptLoop_success_bad_retry (getCacheKey endpoint params) now net 2 0 c []
        body h0 hb (by decide)
      simpa using this
    have t2 : attemptLoop (getCacheKey endpoint params) now net 2 1 c [1] =
        ⟨.ok good, cacheSet c (getCacheKey endpoint params) (good, now), 2, [1]⟩ := by
      have := attemptLoop_success_ok (getCacheKey endpoint params) now net 1 1 c [1]
        good h1 hg
      simpa using this
    rw [makeRequest_miss endpoint params now c net hmiss, show maxRetries = 3 from rfl, t1, t2]

/-- Witness for C8: once under an all-`data`-less oracle, once under a
bad-then-good oracle. -/
theorem C8_witness :
    makeRequest "/e" [] 0 [] netAllNoData = ⟨.error .unexpectedError, [], 3, [1, 2]⟩ ∧
    makeRequest "/e" [] 0 [] netBadThenGood =
      ⟨.ok bodyWithData, cacheSet [] (getCacheKey "/e" []) (bodyWithData, 0), 2, [1]⟩ :=
  ⟨(C8_missing_data_retryable "/e" [] 0 [] netAllNoData bodyNoData bodyWithData rfl).1
     (fun _ => ⟨bodyNoData, rfl, by intro h; simp [pyContainsDataField, bodyNoData] at h⟩),
   (C8_missing_data_retryable "/e" [] 0 [] netBadThenGood bodyNoData bodyWithData rfl).2
     rfl (by intro h; simp [pyContainsDataField, bodyNoData] at h) rfl rfl⟩

/-- Claim C9: the `limit` parameter placed in the outgoing listing request
is `min(limit, 500)` — requests above 500 are clamped, requests at most
500 pass through unchanged. -/
theorem C9_limit_clamped (start limit : Int) (sortBy : String) (pid : Option Int) :
    List.lookup "limit" (listingParams start limit sortBy pid) =
      some (.int (min limit 500)) ∧
    (limit ≤ 500 → List.lookup "limit" (listingParams start limit sortBy pid) =
      some (.int limit)) := by
  constructor
  · rfl
  · intro h
    have hmin : min limit 500 = limit := min_eq_left h
    show some (PValue.int (min limit 500)) = some (PValue.int limit)
    rw [hmin]

/-- Witness for C9: `limit=1000` is clamped to 500, `limit=300` passes
through. -/
theorem C9_witness :
    List.lookup "limit" (listingParams 1 1000 "volume_24h" none) = some (.int 500) ∧
    List.lookup "limit" (listingParams 1 300 "volume_24h" none) = some (.int 300) :=
  ⟨by have h := (C9_limit_clamped 1 1000 "volume_24h" none).1
      simpa using h,
   (C9_limit_clamped 1 300 "volume_24h" none).2 (by norm_num)⟩

/-- Claim C10: `platform_id=0` is falsy in `if platform_id:`, so the
`platformId` parameter is omitted from the outgoing request entirely —
the built params, the cache key, and the whole listing call coincide with
the no-filter call. -/
theorem C10_platform_zero_like_none (start limit : Int) (sortBy : String)
    (now : Nat) (c : Cache) (net : Nat → Outcome) :
    listingParams start limit sortBy (some 0) = listingParams start limit sortBy none ∧
    List.lookup "platformId" (listingParams start limit sortBy (some 0)) = none ∧
    getCacheKey listingEndpoint (listingParams start limit sortBy (some 0)) =
      getCacheKey listingEndpoint (listingParams start limit sortBy none) ∧
    getCryptocurrencyListing start limit sortBy (some 0) now c net =
      getCryptocurrencyListing start limit sortBy none now c net :=
  ⟨rfl, rfl, rfl, rfl⟩

end CMC
